import Mathlib

/-!
Verification of the Gorgon desktop backend command surface.

The development shallowly embeds the Rust sources of the repository:

* `src-tauri/src/error.rs`    — the error taxonomy (`Error`);
* `src-tauri/src/commands.rs` — the filesystem facade and the path guard
  (`validate_path`, `read_file`, `write_file`, `list_directory`,
  `file_exists`, `create_directory`, `delete_file`);
* `src-tauri/src/git.rs`      — the git facade (`get_status`, `get_log`,
  `create_commit`, `pull_branch`).

Effectful library calls (the real filesystem, libgit2) are modelled by
explicit state passing: the filesystem is a finite map of files and a set
of directories, a repository is the list of commits reachable from HEAD in
revwalk order together with the configured signature, and the data that a
library call would produce (directory listings, status flags, fetched
commits, fresh object ids) is passed in as an argument.
-/

namespace Gorgon

/-- Error type mirroring `Error` in `src-tauri/src/error.rs`. -/
inductive Error where
  | io (msg : String)
  | git (msg : String)
  | serde (msg : String)
  | invalidPath (msg : String)
  | notAllowed (msg : String)
  | noRepository
  | custom (msg : String)
deriving DecidableEq

/-- Lowercase a string character by character, modelling `str::to_lowercase`
on the ASCII fragment relevant to the denylist patterns. -/
def strLower (s : String) : String := ⟨s.data.map Char.toLower⟩

/-- Check whether `pat` occurs as a contiguous run inside `hay`,
modelling `str::contains` with a string pattern. -/
def hasSubstringAux (pat : List Char) : List Char → Bool
  | [] => pat.isEmpty
  | c :: rest => pat.isPrefixOf (c :: rest) || hasSubstringAux pat rest

/-- String-level substring test: `strContainsSub hay pat` holds iff `pat`
occurs contiguously in `hay` (models Rust `hay.contains(pat)`). -/
def strContainsSub (hay pat : String) : Bool := hasSubstringAux pat.data hay.data

/-- The fixed denylist of sensitive path substrings, in the order they are
listed in `validate_path` in `commands.rs`. -/
def blocked_patterns : List String :=
  ["/.ssh/", "/.gnupg/", "/.config/", "/etc/", "/.env", ".env",
   "/credentials", "credentials.json", "/secrets"]

/-- Path guard from `commands.rs`: lowercase the path and reject it with a
`notAllowed` error naming the first denylisted substring it contains. -/
def validate_path (path : String) : Except Error Unit :=
  let path_str := strLower path
  match blocked_patterns.find? (fun pat => strContainsSub path_str pat) with
  | some pat =>
      .error (.notAllowed ("Access to path containing '" ++ pat ++ "' is not allowed"))
  | none => .ok ()

/-- Abstract filesystem state: a finite map from paths to file contents and
the set of existing directories. -/
structure FileSystem where
  files : List (String × String)
  dirs : List String
deriving DecidableEq

/-- Read a file, modelling `read_file` in `commands.rs`: guard the path,
then return the contents or an I/O error when the file is missing. -/
def read_file (fs : FileSystem) (path : String) : Except Error String :=
  match validate_path path with
  | .error e => .error e
  | .ok _ =>
      match fs.files.lookup path with
      | some content => .ok content
      | none => .error (.io "No such file or directory")

/-- Split a path at its final separator to obtain the parent directory,
modelling `Path::parent` (root/empty distinctions collapsed to `none`). -/
def parentDir (path : String) : Option String :=
  let cs := path.splitOn "/"
  if cs.length ≤ 1 then (if path.isEmpty then none else some "")
  else some (String.intercalate "/" cs.dropLast)

/-- All directories that `fs::create_dir_all` brings into existence for a
directory path: every prefix of its component chain, including itself. -/
def dirChain (dir : String) : List String :=
  let cs := dir.splitOn "/"
  (List.range cs.length).map (fun i => String.intercalate "/" (cs.take (i + 1)))

/-- Create a directory and all missing ancestors, modelling
`fs::create_dir_all` (a no-op for components that already exist). -/
def create_dir_all (fs : FileSystem) (dir : String) : FileSystem :=
  { fs with dirs := dirChain dir ++ fs.dirs }

/-- Directories guaranteed to exist after the parent-creation step of
`write_file`: the component-prefix chain of the path's parent. -/
def ancestorDirs (path : String) : List String :=
  match parentDir path with
  | some par => dirChain par
  | none => []

/-- Write a file, modelling `write_file` in `commands.rs`: guard the path,
create the parent directories, then store the content, replacing any
previous content in full. -/
def write_file (fs : FileSystem) (path content : String) :
    Except Error FileSystem :=
  match validate_path path with
  | .error e => .error e
  | .ok _ =>
      let fs1 :=
        match parentDir path with
        | some par => create_dir_all fs par
        | none => fs
      .ok { fs1 with
            files := (path, content) :: fs1.files.filter (fun kv => kv.1 ≠ path) }

/-- Existence test on the abstract filesystem, modelling `Path::exists`. -/
def pathExists (fs : FileSystem) (path : String) : Bool :=
  (fs.files.lookup path).isSome || fs.dirs.contains path

/-- Existence check, modelling `file_exists` in `commands.rs`: no path
guard, always returns a boolean. -/
def file_exists (fs : FileSystem) (path : String) : Except Error Bool :=
  .ok (pathExists fs path)

/-- Create a directory and its ancestors, modelling `create_directory` in
`commands.rs`: guard the path, then `fs::create_dir_all`. -/
def create_directory (fs : FileSystem) (path : String) :
    Except Error FileSystem :=
  match validate_path path with
  | .error e => .error e
  | .ok _ => .ok (create_dir_all fs path)

/-- Prefix test used to delimit the contents of a directory subtree. -/
def strBeginsWith (s p : String) : Bool := p.data.isPrefixOf s.data

/-- Delete a path, modelling `delete_file` in `commands.rs`: guard the
path; a directory is removed with all of its contents recursively, a file
is removed alone, and a missing path is an I/O error. -/
def delete_file (fs : FileSystem) (path : String) : Except Error FileSystem :=
  match validate_path path with
  | .error e => .error e
  | .ok _ =>
      if fs.dirs.contains path then
        .ok { files := fs.files.filter
                (fun kv => ¬ (kv.1 = path ∨ strBeginsWith kv.1 (path ++ "/"))),
              dirs := fs.dirs.filter
                (fun d => ¬ (d = path ∨ strBeginsWith d (path ++ "/"))) }
      else if (fs.files.lookup path).isSome then
        .ok { fs with files := fs.files.filter (fun kv => kv.1 ≠ path) }
      else .error (.io "No such file or directory")

/-- One child of a listed directory, mirroring `DirectoryEntry` in
`commands.rs`. -/
structure DirectoryEntry where
  name : String
  path : String
  is_directory : Bool
  size : Nat
deriving DecidableEq

/-- Three-way byte-lexicographic comparison on character lists, modelling
`Ord::cmp` on Rust strings (codepoint order coincides with UTF-8 byte
order). -/
def charListCmp : List Char → List Char → Ordering
  | [], [] => .eq
  | [], _ :: _ => .lt
  | _ :: _, [] => .gt
  | a :: as, b :: bs =>
      if a < b then .lt else if b < a then .gt else charListCmp as bs

/-- Comparator from `list_directory` in `commands.rs`: directories sort
before files, and within a group entries compare by lowercased name. -/
def entryCmp (a b : DirectoryEntry) : Ordering :=
  match a.is_directory, b.is_directory with
  | true, false => .lt
  | false, true => .gt
  | _, _ => charListCmp (strLower a.name).data (strLower b.name).data

/-- Boolean order used to run the sort: `a` may precede `b` iff the
comparator does not order `a` strictly after `b`. -/
def entryLe (a b : DirectoryEntry) : Bool := !(entryCmp a b == Ordering.gt)

/-- List a directory, modelling `list_directory` in `commands.rs`: guard
the path, then sort the raw entries that `fs::read_dir` produced
(passed in as `read_dir`, an error when the path is not a readable
directory) with the comparator above. -/
def list_directory (path : String)
    (read_dir : Except Error (List DirectoryEntry)) :
    Except Error (List DirectoryEntry) :=
  match validate_path path with
  | .error e => .error e
  | .ok _ =>
      match read_dir with
      | .error e => .error e
      | .ok entries => .ok (entries.mergeSort entryLe)

/-- Status flags of one libgit2 status entry, one field per flag consulted
by `get_status` in `git.rs`. -/
structure Status where
  index_new : Bool
  index_modified : Bool
  index_deleted : Bool
  index_renamed : Bool
  wt_new : Bool
  wt_modified : Bool
  wt_deleted : Bool
  wt_renamed : Bool
  conflicted : Bool
deriving DecidableEq

/-- Raw status entry as produced by `repo.statuses`: an optional path (the
library yields `None` for non-UTF-8 paths) and the flag set. -/
structure RawStatusEntry where
  path : Option String
  status : Status
deriving DecidableEq

/-- Response shape mirroring `StatusEntry` in `git.rs`. -/
structure StatusEntry where
  path : String
  status : String
  staged : Bool
deriving DecidableEq

/-- Label classification from `get_status` in `git.rs`: the first matching
arm of the if-chain decides the label. -/
def status_str (s : Status) : String :=
  if s.index_new then "new"
  else if s.index_modified || s.wt_modified then "modified"
  else if s.index_deleted || s.wt_deleted then "deleted"
  else if s.index_renamed || s.wt_renamed then "renamed"
  else if s.wt_new then "untracked"
  else if s.conflicted then "conflicted"
  else "unknown"

/-- Staged flag from `get_status` in `git.rs`: any index-side change. -/
def staged_flag (s : Status) : Bool :=
  s.index_new || s.index_modified || s.index_deleted || s.index_renamed

/-- Per-entry transformation applied by `get_status`: default the path to
the empty string and attach label and staged flag. -/
def mkStatusEntry (e : RawStatusEntry) : StatusEntry :=
  { path := e.path.getD "", status := status_str e.status,
    staged := staged_flag e.status }

/-- Repository status, modelling `get_status` in `git.rs` over the raw
entries the library enumerated. -/
def get_status (raw : List RawStatusEntry) : List StatusEntry :=
  raw.map mkStatusEntry

/-- Author identity, mirroring a libgit2 signature (`repo.signature()`),
with the timestamp the signature carries. -/
structure Signature where
  name : String
  email : String
  time : Int
deriving DecidableEq

/-- One commit as the facade observes it through libgit2: full hex id,
optional one-line summary, optional author and committer display data,
commit time, and parent ids. -/
structure Commit where
  id : String
  summary : Option String
  author_name : Option String
  author_email : Option String
  committer_name : Option String
  committer_email : Option String
  time : Int
  parents : List String
deriving DecidableEq

/-- Repository handle contents: the commits reachable from HEAD in revwalk
order (most recent first; empty iff HEAD is unborn) and the configured
identity (`none` when `repo.signature()` fails). -/
structure GitRepo where
  history : List Commit
  sig : Option Signature
deriving DecidableEq

/-- Response shape mirroring `LogEntry` in `git.rs`. -/
structure LogEntry where
  id : String
  message : String
  author : String
  time : Int
deriving DecidableEq

/-- Per-commit transformation from `get_log` in `git.rs`: truncate the id
to its first 8 characters and default summary and author name to the
empty string. -/
def mkLogEntry (c : Commit) : LogEntry :=
  { id := ⟨c.id.data.take 8⟩, message := c.summary.getD "",
    author := c.author_name.getD "", time := c.time }

/-- Commit walk, modelling `get_log` in `git.rs`: `revwalk.push_head()`
fails when HEAD is unborn (no commits); otherwise the walk yields the
history, cut off after `count` entries. -/
def get_log (repo : GitRepo) (count : Nat) : Except Error (List LogEntry) :=
  match repo.history with
  | [] => .error (.git "revspec walk could not push HEAD")
  | _ => .ok ((repo.history.take count).map mkLogEntry)

/-- Command wrapper, modelling `git_log` in `commands.rs`: an unspecified
count defaults to 20. -/
def git_log (repo : GitRepo) (count : Option Nat) :
    Except Error (List LogEntry) :=
  get_log repo (count.getD 20)

/-- One-line summary of a commit message, modelling libgit2's
`commit.summary()` (absent for an empty message). -/
def summaryOf (message : String) : Option String :=
  if message.isEmpty then none else some ((message.splitOn "\n").headD "")

/-- Commit object assembled by `create_commit`: the configured identity is
used as both author and committer, and the sole parent is the given
commit id. -/
def newCommit (sig : Signature) (message new_id parent_id : String) :
    Commit :=
  { id := new_id, summary := summaryOf message,
    author_name := some sig.name, author_email := some sig.email,
    committer_name := some sig.name, committer_email := some sig.email,
    time := sig.time, parents := [parent_id] }

/-- Create a commit, modelling `create_commit` in `git.rs`: fail with a
configuration message when no identity is available, resolve HEAD to the
parent commit (failing when HEAD is unborn), then append a commit with the
configured identity as both author and committer and return its full hex
id. The fresh object id the library would compute is passed in as
`new_id`. -/
def create_commit (repo : GitRepo) (message : String) (new_id : String) :
    Except Error (String × GitRepo) :=
  match repo.sig with
  | none =>
      .error (.custom
        ("Git user not configured. Run 'git config user.name' and " ++
         "'git config user.email'"))
  | some sig =>
      match repo.history with
      | [] => .error (.git "reference 'HEAD' not found")
      | parent :: _ =>
          .ok (new_id,
            { repo with
              history := newCommit sig message new_id parent.id ::
                repo.history })

/-- Merge-analysis outcome flags, mirroring the bits of libgit2's
`merge_analysis` that `pull_branch` consults. -/
structure MergeAnalysis where
  is_fast_forward : Bool
  is_normal : Bool
deriving DecidableEq

/-- Observable repository state that `pull_branch` may change after the
fetch: the target of the local branch reference and an abstract snapshot
of the working tree. -/
structure PullState where
  branch_target : String
  workdir : String
deriving DecidableEq

/-- Post-fetch step of `pull_branch` in `git.rs`, with the fetch results
passed in: `tree_of` maps a commit id to its checked-out tree snapshot,
`analysis` is the merge analysis against `fetch_commit`. A fast-forward
retargets the branch and force-checks-out HEAD; a normal merge is refused;
anything else falls through to `Ok(())` untouched. -/
def pull_branch (tree_of : String → String) (st : PullState)
    (analysis : MergeAnalysis) (fetch_commit : String) :
    Except Error Unit × PullState :=
  if analysis.is_fast_forward then
    (.ok (), { branch_target := fetch_commit, workdir := tree_of fetch_commit })
  else if analysis.is_normal then
    (.error (.custom "Manual merge required - non-fast-forward"), st)
  else
    (.ok (), st)

/-- Helper: when the lowercased path matches, `validate_path` rejects it
naming the first matching pattern. -/
theorem validate_path_denied {path pat : String}
    (h : blocked_patterns.find? (fun p => strContainsSub (strLower path) p) =
      some pat) :
    validate_path path =
      .error (.notAllowed
        ("Access to path containing '" ++ pat ++ "' is not allowed")) := by
  simp [validate_path, h]

/-- C1: for every path whose lowercased form contains a denylisted
substring, `read_file`, `write_file`, `create_directory` and `delete_file`
all fail with the not-allowed error naming the first matching pattern in
listed order, while `file_exists` still returns a boolean successfully. -/
theorem c1_guard_blocks_file_ops (fs : FileSystem) (path : String)
    (h : ∃ pat ∈ blocked_patterns, strContainsSub (strLower path) pat = true) :
    ∃ pat, blocked_patterns.find?
        (fun p => strContainsSub (strLower path) p) = some pat ∧
      read_file fs path =
        .error (.notAllowed
          ("Access to path containing '" ++ pat ++ "' is not allowed")) ∧
      (∀ content, write_file fs path content =
        .error (.notAllowed
          ("Access to path containing '" ++ pat ++ "' is not allowed"))) ∧
      create_directory fs path =
        .error (.notAllowed
          ("Access to path containing '" ++ pat ++ "' is not allowed")) ∧
      delete_file fs path =
        .error (.notAllowed
          ("Access to path containing '" ++ pat ++ "' is not allowed")) ∧
      file_exists fs path = .ok (pathExists fs path) := by
  obtain ⟨pat, hfind⟩ := Option.isSome_iff_exists.mp (List.find?_isSome.mpr h)
  have hv := validate_path_denied hfind
  exact ⟨pat, hfind, by simp [read_file, hv], fun content => by simp [write_file, hv],
    by simp [create_directory, hv], by simp [delete_file, hv], rfl⟩

/-- Witness for C1 at the concrete path `/home/user/.ssh/id_rsa`. -/
theorem c1_guard_blocks_file_ops_witness :
    (∃ pat ∈ blocked_patterns,
      strContainsSub (strLower "/home/user/.ssh/id_rsa") pat = true) ∧
    ∃ pat, blocked_patterns.find?
        (fun p => strContainsSub (strLower "/home/user/.ssh/id_rsa") p) =
          some pat ∧
      read_file ⟨[], []⟩ "/home/user/.ssh/id_rsa" =
        .error (.notAllowed
          ("Access to path containing '" ++ pat ++ "' is not allowed")) ∧
      (∀ content, write_file ⟨[], []⟩ "/home/user/.ssh/id_rsa" content =
        .error (.notAllowed
          ("Access to path containing '" ++ pat ++ "' is not allowed"))) ∧
      create_directory ⟨[], []⟩ "/home/user/.ssh/id_rsa" =
        .error (.notAllowed
          ("Access to path containing '" ++ pat ++ "' is not allowed")) ∧
      delete_file ⟨[], []⟩ "/home/user/.ssh/id_rsa" =
        .error (.notAllowed
          ("Access to path containing '" ++ pat ++ "' is not allowed")) ∧
      file_exists ⟨[], []⟩ "/home/user/.ssh/id_rsa" =
        .ok (pathExists ⟨[], []⟩ "/home/user/.ssh/id_rsa") :=
  ⟨⟨"/.ssh/", by decide, by decide⟩,
    c1_guard_blocks_file_ops ⟨[], []⟩ "/home/user/.ssh/id_rsa"
      ⟨"/.ssh/", by decide, by decide⟩⟩

/-- C2: for every path whose lowercased form contains a denylisted
substring, `list_directory` fails with the not-allowed error regardless of
what reading the directory would have produced: the guard runs before the
list operation. -/
theorem c2_guard_precedes_listing (path : String)
    (read_dir : Except Error (List DirectoryEntry))
    (h : ∃ pat ∈ blocked_patterns, strContainsSub (strLower path) pat = true) :
    ∃ pat, blocked_patterns.find?
        (fun p => strContainsSub (strLower path) p) = some pat ∧
      list_directory path read_dir =
        .error (.notAllowed
          ("Access to path containing '" ++ pat ++ "' is not allowed")) := by
  obtain ⟨pat, hfind⟩ := Option.isSome_iff_exists.mp (List.find?_isSome.mpr h)
  exact ⟨pat, hfind, by simp [list_directory, validate_path_denied hfind]⟩

/-- Witness for C2 at the concrete path `/etc/passwd`, with the directory
read itself erroring (the guard error wins). -/
theorem c2_guard_precedes_listing_witness :
    (∃ pat ∈ blocked_patterns,
      strContainsSub (strLower "/etc/passwd") pat = true) ∧
    ∃ pat, blocked_patterns.find?
        (fun p => strContainsSub (strLower "/etc/passwd") p) = some pat ∧
      list_directory "/etc/passwd" (.error (.io "unreadable")) =
        .error (.notAllowed
          ("Access to path containing '" ++ pat ++ "' is not allowed")) :=
  ⟨⟨"/etc/", by decide, by decide⟩,
    c2_guard_precedes_listing "/etc/passwd" (.error (.io "unreadable"))
      ⟨"/etc/", by decide, by decide⟩⟩

/-- C3: `git_status` maps every entry to exactly one label following the
precedence index-new, then modified (index or worktree), then deleted
(index or worktree), then renamed (index or worktree), then untracked
(worktree-new), then conflicted, else unknown; and the staged flag holds
iff the entry is new, modified, deleted or renamed in the index. -/
theorem c3_git_status_classification :
    (∀ raw : List RawStatusEntry, get_status raw = raw.map mkStatusEntry) ∧
    (∀ (p : Option String) (s : Status),
      mkStatusEntry ⟨p, s⟩ = ⟨p.getD "", status_str s, staged_flag s⟩) ∧
    ∀ s : Status,
      (status_str s = "new" ↔ s.index_new = true) ∧
      (status_str s = "modified" ↔
        s.index_new = false ∧ (s.index_modified || s.wt_modified) = true) ∧
      (status_str s = "deleted" ↔
        s.index_new = false ∧ s.index_modified = false ∧
        s.wt_modified = false ∧ (s.index_deleted || s.wt_deleted) = true) ∧
      (status_str s = "renamed" ↔
        s.index_new = false ∧ s.index_modified = false ∧
        s.wt_modified = false ∧ s.index_deleted = false ∧
        s.wt_deleted = false ∧ (s.index_renamed || s.wt_renamed) = true) ∧
      (status_str s = "untracked" ↔
        s.index_new = false ∧ s.index_modified = false ∧
        s.wt_modified = false ∧ s.index_deleted = false ∧
        s.wt_deleted = false ∧ s.index_renamed = false ∧
        s.wt_renamed = false ∧ s.wt_new = true) ∧
      (status_str s = "conflicted" ↔
        s.index_new = false ∧ s.index_modified = false ∧
        s.wt_modified = false ∧ s.index_deleted = false ∧
        s.wt_deleted = false ∧ s.index_renamed = false ∧
        s.wt_renamed = false ∧ s.wt_new = false ∧ s.conflicted = true) ∧
      (status_str s = "unknown" ↔
        s.index_new = false ∧ s.index_modified = false ∧
        s.wt_modified = false ∧ s.index_deleted = false ∧
        s.wt_deleted = false ∧ s.index_renamed = false ∧
        s.wt_renamed = false ∧ s.wt_new = false ∧ s.conflicted = false) ∧
      (staged_flag s = true ↔
        (s.index_new || s.index_modified || s.index_deleted ||
          s.index_renamed) = true) := by
  refine ⟨fun raw => rfl, fun p s => rfl, ?_⟩
  rintro ⟨a, b, c, d, e, f, g, h, i⟩
  cases a <;> cases b <;> cases c <;> cases d <;> cases e <;> cases f <;>
    cases g <;> cases h <;> cases i <;> decide

/-- Helper: the three-way comparison answers `eq` exactly on equal lists. -/
theorem charListCmp_eq_iff : ∀ x y : List Char, charListCmp x y = .eq ↔ x = y
  | [], [] => by simp [charListCmp]
  | [], _ :: _ => by simp [charListCmp]
  | _ :: _, [] => by simp [charListCmp]
  | a :: as, b :: bs => by
    by_cases hab : a < b
    · simp only [charListCmp, if_pos hab]
      refine iff_of_false (by simp) ?_
      intro h
      injection h with h1 _
      exact absurd (h1 ▸ hab) (lt_irrefl b)
    · by_cases hba : b < a
      · simp only [charListCmp, if_neg hab, if_pos hba]
        refine iff_of_false (by simp) ?_
        intro h
        injection h with h1 _
        exact absurd (h1 ▸ hba) (lt_irrefl b)
      · have heq : a = b := le_antisymm (not_lt.mp hba) (not_lt.mp hab)
        subst heq
        simp only [charListCmp, if_neg hab]
        rw [charListCmp_eq_iff as bs]
        simp

/-- Helper: the three-way comparison answers `lt` exactly on
lexicographically smaller lists. -/
theorem charListCmp_lt_iff :
    ∀ x y : List Char, charListCmp x y = .lt ↔ List.Lex (· < ·) x y
  | [], [] => ⟨fun h => by simp [charListCmp] at h, fun h => by cases h⟩
  | [], _ :: _ => ⟨fun _ => .nil, fun _ => rfl⟩
  | _ :: _, [] => ⟨fun h => by simp [charListCmp] at h, fun h => by cases h⟩
  | a :: as, b :: bs => by
    by_cases hab : a < b
    · refine iff_of_true ?_ (.rel hab)
      simp [charListCmp, if_pos hab]
    · by_cases hba : b < a
      · simp only [charListCmp, if_neg hab, if_pos hba]
        refine iff_of_false (by simp) ?_
        intro h
        cases h with
        | cons _ => exact absurd hba (lt_irrefl _)
        | rel h' => exact absurd h' hab
      · have heq : a = b := le_antisymm (not_lt.mp hba) (not_lt.mp hab)
        subst heq
        simp only [charListCmp, if_neg hab]
        constructor
        · intro h
          exact .cons ((charListCmp_lt_iff as bs).mp h)
        · intro h
          cases h with
          | cons h' => exact (charListCmp_lt_iff as bs).mpr h'
          | rel h' => exact absurd h' (lt_irrefl _)

/-- Helper: not answering `gt` means less-or-equal in the lexicographic
sense. -/
theorem charListCmp_ne_gt_iff (x y : List Char) :
    charListCmp x y ≠ .gt ↔ (x = y ∨ List.Lex (· < ·) x y) := by
  cases hc : charListCmp x y with
  | lt => exact iff_of_true (by simp) (Or.inr ((charListCmp_lt_iff x y).mp hc))
  | eq => exact iff_of_true (by simp) (Or.inl ((charListCmp_eq_iff x y).mp hc))
  | gt =>
    refine iff_of_false (by simp) ?_
    rintro (rfl | hlex)
    · rw [(charListCmp_eq_iff x x).mpr rfl] at hc
      simp at hc
    · rw [(charListCmp_lt_iff x y).mpr hlex] at hc
      simp at hc

/-- Helper: transitivity of the not-greater relation on character lists. -/
theorem charListCmp_le_trans {x y z : List Char}
    (h1 : charListCmp x y ≠ .gt) (h2 : charListCmp y z ≠ .gt) :
    charListCmp x z ≠ .gt := by
  rcases (charListCmp_ne_gt_iff x y).mp h1 with rfl | hxy
  · exact h2
  · rcases (charListCmp_ne_gt_iff y z).mp h2 with rfl | hyz
    · exact h1
    · have h3 : x < z := lt_trans (show x < y from hxy) (show y < z from hyz)
      exact (charListCmp_ne_gt_iff x z).mpr
        (Or.inr (show List.Lex (· < ·) x z from h3))

/-- Helper: totality of the not-greater relation on character lists. -/
theorem charListCmp_le_total (x y : List Char) :
    charListCmp x y ≠ .gt ∨ charListCmp y x ≠ .gt := by
  rcases lt_trichotomy x y with h | rfl | h
  · exact Or.inl ((charListCmp_ne_gt_iff x y).mpr (Or.inr h))
  · exact Or.inl ((charListCmp_ne_gt_iff x x).mpr (Or.inl rfl))
  · exact Or.inr ((charListCmp_ne_gt_iff y x).mpr (Or.inr h))

/-- Helper: the boolean sort order holds exactly when the comparator does
not answer `gt`. -/
theorem entryLe_eq_true_iff (a b : DirectoryEntry) :
    entryLe a b = true ↔ entryCmp a b ≠ .gt := by
  cases hc : entryCmp a b <;> simp [entryLe, hc] <;> decide

/-- Helper: the sort order is transitive. -/
theorem entryLe_trans :
    ∀ a b c : DirectoryEntry,
      entryLe a b = true → entryLe b c = true → entryLe a c = true := by
  intro a b c h1 h2
  rw [entryLe_eq_true_iff] at h1 h2 ⊢
  obtain ⟨an, ap, ad, asz⟩ := a
  obtain ⟨bn, bp, bd, bsz⟩ := b
  obtain ⟨cn, cp, cd, csz⟩ := c
  cases ad <;> cases bd <;> cases cd <;>
    first
      | exact absurd rfl h1
      | exact absurd rfl h2
      | exact charListCmp_le_trans h1 h2
      | simp [entryCmp]

/-- Helper: the sort order is total. -/
theorem entryLe_total :
    ∀ a b : DirectoryEntry, (entryLe a b || entryLe b a) = true := by
  intro a b
  obtain ⟨an, ap, ad, asz⟩ := a
  obtain ⟨bn, bp, bd, bsz⟩ := b
  cases ad <;> cases bd <;>
    first
      | rfl
      | (rw [Bool.or_eq_true]
         rcases charListCmp_le_total (strLower an).data (strLower bn).data
           with h | h
         · exact Or.inl ((entryLe_eq_true_iff _ _).mpr h)
         · exact Or.inr ((entryLe_eq_true_iff _ _).mpr h))

/-- Specification-level ordering for directory listings: directories come
before files, and inside a group names compare case-insensitively
lexicographically. -/
def dirsFirstCI (a b : DirectoryEntry) : Prop :=
  (a.is_directory = true ∧ b.is_directory = false) ∨
  (a.is_directory = b.is_directory ∧ strLower a.name ≤ strLower b.name)

/-- Helper: the code's sort order implies the specification ordering. -/
theorem entryLe_imp_spec {a b : DirectoryEntry}
    (h : entryLe a b = true) : dirsFirstCI a b := by
  rw [entryLe_eq_true_iff] at h
  obtain ⟨an, ap, ad, asz⟩ := a
  obtain ⟨bn, bp, bd, bsz⟩ := b
  cases ad <;> cases bd
  · refine Or.inr ⟨rfl, String.le_iff_toList_le.mpr ?_⟩
    rcases (charListCmp_ne_gt_iff _ _).mp h with heq | hlex
    · exact le_of_eq heq
    · exact le_of_lt hlex
  · exact absurd rfl h
  · exact Or.inl ⟨rfl, rfl⟩
  · refine Or.inr ⟨rfl, String.le_iff_toList_le.mpr ?_⟩
    rcases (charListCmp_ne_gt_iff _ _).mp h with heq | hlex
    · exact le_of_eq heq
    · exact le_of_lt hlex

/-- C4: on an allowed path whose directory read succeeds, `list_directory`
returns exactly the immediate children the read produced (a permutation,
nothing added or dropped), ordered with every directory before every file
and case-insensitively lexicographically by name within each group. -/
theorem c4_list_directory_sorted (path : String)
    (entries : List DirectoryEntry)
    (h : validate_path path = .ok ()) :
    ∃ out, list_directory path (.ok entries) = .ok out ∧
      out.Perm entries ∧ out.Pairwise dirsFirstCI := by
  refine ⟨entries.mergeSort entryLe, by simp [list_directory, h], ?_, ?_⟩
  · exact List.mergeSort_perm entries entryLe
  · exact (List.sorted_mergeSort entryLe_trans entryLe_total entries).imp
      (fun hab => entryLe_imp_spec hab)

/-- Witness for C4 on a concrete directory with two files and two
subdirectories. -/
theorem c4_list_directory_sorted_witness :
    validate_path "/home/user/docs" = .ok () ∧
    ∃ out, list_directory "/home/user/docs"
        (.ok [⟨"b.txt", "/home/user/docs/b.txt", false, 3⟩,
              ⟨"Zed", "/home/user/docs/Zed", true, 0⟩,
              ⟨"Alpha.txt", "/home/user/docs/Alpha.txt", false, 5⟩,
              ⟨"art", "/home/user/docs/art", true, 0⟩]) = .ok out ∧
      out.Perm [⟨"b.txt", "/home/user/docs/b.txt", false, 3⟩,
                ⟨"Zed", "/home/user/docs/Zed", true, 0⟩,
                ⟨"Alpha.txt", "/home/user/docs/Alpha.txt", false, 5⟩,
                ⟨"art", "/home/user/docs/art", true, 0⟩] ∧
      out.Pairwise dirsFirstCI :=
  ⟨rfl, c4_list_directory_sorted "/home/user/docs" _ rfl⟩

/-- C5: on a repository with at least one commit, `git_log` succeeds and
returns at most the requested number of entries (20 when unspecified),
taken from the head of the revwalk history in order, each with the first 8
characters of the commit id, the one-line summary defaulted to the empty
string, and the author display name defaulted to the empty string. -/
theorem c5_git_log_entries (repo : GitRepo) (count : Option Nat)
    (h : repo.history ≠ []) :
    ∃ l, git_log repo count = .ok l ∧
      l = (repo.history.take (count.getD 20)).map mkLogEntry ∧
      l.length ≤ count.getD 20 ∧
      ∀ (i : Nat) (hi : i < l.length) (hj : i < repo.history.length),
        (l.get ⟨i, hi⟩).id = ⟨(repo.history.get ⟨i, hj⟩).id.data.take 8⟩ ∧
        (l.get ⟨i, hi⟩).message =
          (repo.history.get ⟨i, hj⟩).summary.getD "" ∧
        (l.get ⟨i, hi⟩).author =
          (repo.history.get ⟨i, hj⟩).author_name.getD "" := by
  refine ⟨(repo.history.take (count.getD 20)).map mkLogEntry, ?_, rfl, ?_, ?_⟩
  · cases hh : repo.history with
    | nil => exact absurd hh h
    | cons c rest => simp [git_log, get_log, hh]
  · simp [List.length_take]
  · intro i hi hj
    simp [List.get_eq_getElem, List.getElem_map, List.getElem_take, mkLogEntry]

/-- Witness for C5: a two-commit repository logged with count 1. -/
theorem c5_git_log_entries_witness :
    (GitRepo.mk
      [⟨"1111aaaa2222bbbb3333cccc4444dddd5555eeee", some "second",
         some "Alice", some "alice@example.com", some "Alice",
         some "alice@example.com", 200, ["0000aaaa"]⟩,
       ⟨"0000aaaa1111bbbb2222cccc3333dddd4444eeee", some "first",
         some "Alice", some "alice@example.com", some "Alice",
         some "alice@example.com", 100, []⟩] none).history ≠ [] ∧
    ∃ l, git_log
        (GitRepo.mk
          [⟨"1111aaaa2222bbbb3333cccc4444dddd5555eeee", some "second",
             some "Alice", some "alice@example.com", some "Alice",
             some "alice@example.com", 200, ["0000aaaa"]⟩,
           ⟨"0000aaaa1111bbbb2222cccc3333dddd4444eeee", some "first",
             some "Alice", some "alice@example.com", some "Alice",
             some "alice@example.com", 100, []⟩] none) (some 1) = .ok l ∧
      l = ((GitRepo.mk
          [⟨"1111aaaa2222bbbb3333cccc4444dddd5555eeee", some "second",
             some "Alice", some "alice@example.com", some "Alice",
             some "alice@example.com", 200, ["0000aaaa"]⟩,
           ⟨"0000aaaa1111bbbb2222cccc3333dddd4444eeee", some "first",
             some "Alice", some "alice@example.com", some "Alice",
             some "alice@example.com", 100, []⟩] none).history.take
          ((some 1).getD 20)).map mkLogEntry ∧
      l.length ≤ (some 1).getD 20 ∧
      ∀ (i : Nat) (hi : i < l.length)
        (hj : i < (GitRepo.mk
          [⟨"1111aaaa2222bbbb3333cccc4444dddd5555eeee", some "second",
             some "Alice", some "alice@example.com", some "Alice",
             some "alice@example.com", 200, ["0000aaaa"]⟩,
           ⟨"0000aaaa1111bbbb2222cccc3333dddd4444eeee", some "first",
             some "Alice", some "alice@example.com", some "Alice",
             some "alice@example.com", 100, []⟩] none).history.length),
        (l.get ⟨i, hi⟩).id = ⟨((GitRepo.mk
          [⟨"1111aaaa2222bbbb3333cccc4444dddd5555eeee", some "second",
             some "Alice", some "alice@example.com", some "Alice",
             some "alice@example.com", 200, ["0000aaaa"]⟩,
           ⟨"0000aaaa1111bbbb2222cccc3333dddd4444eeee", some "first",
             some "Alice", some "alice@example.com", some "Alice",
             some "alice@example.com", 100, []⟩] none).history.get
            ⟨i, hj⟩).id.data.take 8⟩ ∧
        (l.get ⟨i, hi⟩).message = ((GitRepo.mk
          [⟨"1111aaaa2222bbbb3333cccc4444dddd5555eeee", some "second",
             some "Alice", some "alice@example.com", some "Alice",
             some "alice@example.com", 200, ["0000aaaa"]⟩,
           ⟨"0000aaaa1111bbbb2222cccc3333dddd4444eeee", some "first",
             some "Alice", some "alice@example.com", some "Alice",
             some "alice@example.com", 100, []⟩] none).history.get
            ⟨i, hj⟩).summary.getD "" ∧
        (l.get ⟨i, hi⟩).author = ((GitRepo.mk
          [⟨"1111aaaa2222bbbb3333cccc4444dddd5555eeee", some "second",
             some "Alice", some "alice@example.com", some "Alice",
             some "alice@example.com", 200, ["0000aaaa"]⟩,
           ⟨"0000aaaa1111bbbb2222cccc3333dddd4444eeee", some "first",
             some "Alice", some "alice@example.com", some "Alice",
             some "alice@example.com", 100, []⟩] none).history.get
            ⟨i, hj⟩).author_name.getD "" :=
  ⟨by simp, c5_git_log_entries _ (some 1) (by simp)⟩

/-- C10: on a repository with no commits (unborn HEAD), `git_log` returns
an error rather than an empty list, for every requested count. -/
theorem c10_git_log_unborn_head (repo : GitRepo) (count : Option Nat)
    (h : repo.history = []) :
    ∃ e, git_log repo count = .error e := by
  refine ⟨.git "revspec walk could not push HEAD", ?_⟩
  simp [git_log, get_log, h]

/-- Witness for C10: the empty repository. -/
theorem c10_git_log_unborn_head_witness :
    (GitRepo.mk [] none).history = [] ∧
    ∃ e, git_log (GitRepo.mk [] none) none = .error e :=
  ⟨rfl, c10_git_log_unborn_head (GitRepo.mk [] none) none rfl⟩

/-- C6: when the merge analysis is a normal (non-fast-forward) merge,
`pull_branch` fails with the manual-merge-required error and the state —
branch reference target and working tree — is returned unchanged. -/
theorem c6_pull_normal_merge_refused (tree_of : String → String)
    (st : PullState) (analysis : MergeAnalysis) (fetch_commit : String)
    (h₁ : analysis.is_fast_forward = false) (h₂ : analysis.is_normal = true) :
    pull_branch tree_of st analysis fetch_commit =
      (.error (.custom "Manual merge required - non-fast-forward"), st) := by
  simp [pull_branch, h₁, h₂]

/-- Witness for C6 at a concrete diverged state. -/
theorem c6_pull_normal_merge_refused_witness :
    (MergeAnalysis.mk false true).is_fast_forward = false ∧
    (MergeAnalysis.mk false true).is_normal = true ∧
    pull_branch (fun _ => "tree") ⟨"c1", "w"⟩ ⟨false, true⟩ "c2" =
      (.error (.custom "Manual merge required - non-fast-forward"),
        (⟨"c1", "w"⟩ : PullState)) :=
  ⟨rfl, rfl,
    c6_pull_normal_merge_refused (fun _ => "tree") ⟨"c1", "w"⟩ ⟨false, true⟩
      "c2" rfl rfl⟩

/-- C7 counterexample: with an uncommitted change in the working tree and
an already-up-to-date analysis (neither fast-forward nor normal),
`pull_branch` is not identical in behavior to a fast-forward to the same
commit — the fast-forward path force-checks-out the working tree, the
fall-through path leaves it untouched. -/
theorem c7_pull_other_outcome_counterexample :
    (pull_branch (fun _ => "clean") ⟨"c1", "dirty"⟩ ⟨false, false⟩
        "c1").2.workdir ≠
    (pull_branch (fun _ => "clean") ⟨"c1", "dirty"⟩ ⟨true, false⟩
        "c1").2.workdir := by
  decide

/-- C7 (amended): when the merge analysis is neither fast-forward nor
normal, `pull_branch` succeeds as a pure no-op — the state is returned
unchanged — matching a fast-forward to the same commit in outcome and in
final branch-reference target, though not in working-tree effect. -/
theorem c7_pull_other_outcome_noop (tree_of : String → String)
    (st : PullState) (analysis : MergeAnalysis) (fetch_commit : String)
    (h₁ : analysis.is_fast_forward = false) (h₂ : analysis.is_normal = false) :
    pull_branch tree_of st analysis fetch_commit = (.ok (), st) ∧
    (pull_branch tree_of st analysis fetch_commit).1 =
      (pull_branch tree_of st ⟨true, false⟩ st.branch_target).1 ∧
    (pull_branch tree_of st analysis fetch_commit).2.branch_target =
      (pull_branch tree_of st ⟨true, false⟩ st.branch_target).2.branch_target
    := by
  refine ⟨?_, ?_, ?_⟩ <;> simp [pull_branch, h₁, h₂]

/-- Witness for C7 (amended) at a concrete up-to-date state. -/
theorem c7_pull_other_outcome_noop_witness :
    (MergeAnalysis.mk false false).is_fast_forward = false ∧
    (MergeAnalysis.mk false false).is_normal = false ∧
    pull_branch (fun _ => "clean") ⟨"c1", "dirty"⟩ ⟨false, false⟩ "c1" =
      (.ok (), (⟨"c1", "dirty"⟩ : PullState)) ∧
    (pull_branch (fun _ => "clean") ⟨"c1", "dirty"⟩ ⟨false, false⟩ "c1").1 =
      (pull_branch (fun _ => "clean") ⟨"c1", "dirty"⟩ ⟨true, false⟩
        (⟨"c1", "dirty"⟩ : PullState).branch_target).1 ∧
    (pull_branch (fun _ => "clean") ⟨"c1", "dirty"⟩ ⟨false, false⟩
        "c1").2.branch_target =
      (pull_branch (fun _ => "clean") ⟨"c1", "dirty"⟩ ⟨true, false⟩
        (⟨"c1", "dirty"⟩ : PullState).branch_target).2.branch_target := by
  have h := c7_pull_other_outcome_noop (fun _ => "clean") ⟨"c1", "dirty"⟩
    ⟨false, false⟩ "c1" rfl rfl
  exact ⟨rfl, rfl, h.1, h.2.1, h.2.2⟩

/-- C8: without a configured identity `create_commit` fails with an error
mentioning configuration; with an identity and a resolvable HEAD it
appends a commit whose sole parent is the current HEAD commit, with the
configured identity as both author and committer, updates HEAD to it, and
returns the full 40-character hex id whose first 8 characters match the
corresponding `git_log` entry id. -/
theorem c8_commit_identity (r₁ r₂ : GitRepo) (σ : Signature)
    (parent : Commit) (rest : List Commit) (msg new_id : String)
    (h₁ : r₁.sig = none) (h₂ : r₂.sig = some σ)
    (h₃ : r₂.history = parent :: rest) (h₄ : new_id.length = 40) :
    (∃ s, create_commit r₁ msg new_id = .error (.custom s) ∧
      strContainsSub s "config" = true) ∧
    (∃ c, create_commit r₂ msg new_id =
        .ok (new_id, { r₂ with history := c :: r₂.history }) ∧
      c.id = new_id ∧ c.parents = [parent.id] ∧
      c.author_name = some σ.name ∧ c.author_email = some σ.email ∧
      c.committer_name = some σ.name ∧ c.committer_email = some σ.email ∧
      new_id.length = 40 ∧
      ∃ e, git_log { r₂ with history := c :: r₂.history } (some 1) =
          .ok [e] ∧
        e.id = ⟨new_id.data.take 8⟩) := by
  constructor
  · refine ⟨"Git user not configured. Run 'git config user.name' and " ++
      "'git config user.email'", ?_, by decide⟩
    simp [create_commit, h₁]
  · refine ⟨newCommit σ msg new_id parent.id,
      ?_, rfl, rfl, rfl, rfl, rfl, rfl, h₄, ?_⟩
    · simp [create_commit, h₂, h₃]
    · exact ⟨mkLogEntry (newCommit σ msg new_id parent.id), rfl, rfl⟩

/-- Witness for C8: an unconfigured and a configured one-commit
repository, with a fresh 40-character id. -/
theorem c8_commit_identity_witness :
    ((GitRepo.mk [] none).sig = none ∧
     (GitRepo.mk
        [⟨"0000aaaa1111bbbb2222cccc3333dddd4444eeee", some "first",
           some "Alice", some "alice@example.com", some "Alice",
           some "alice@example.com", 100, []⟩]
        (some ⟨"Alice", "alice@example.com", 300⟩)).sig =
       some ⟨"Alice", "alice@example.com", 300⟩ ∧
     (GitRepo.mk
        [⟨"0000aaaa1111bbbb2222cccc3333dddd4444eeee", some "first",
           some "Alice", some "alice@example.com", some "Alice",
           some "alice@example.com", 100, []⟩]
        (some ⟨"Alice", "alice@example.com", 300⟩)).history =
       ⟨"0000aaaa1111bbbb2222cccc3333dddd4444eeee", some "first",
         some "Alice", some "alice@example.com", some "Alice",
         some "alice@example.com", 100, []⟩ :: [] ∧
     ("9999ffff8888eeee7777dddd6666cccc5555bbbb" : String).length = 40) ∧
    ((∃ s, create_commit (GitRepo.mk [] none) "update readme"
          "9999ffff8888eeee7777dddd6666cccc5555bbbb" =
        .error (.custom s) ∧ strContainsSub s "config" = true) ∧
     (∃ c, create_commit
          (GitRepo.mk
            [⟨"0000aaaa1111bbbb2222cccc3333dddd4444eeee", some "first",
               some "Alice", some "alice@example.com", some "Alice",
               some "alice@example.com", 100, []⟩]
            (some ⟨"Alice", "alice@example.com", 300⟩)) "update readme"
          "9999ffff8888eeee7777dddd6666cccc5555bbbb" =
        .ok ("9999ffff8888eeee7777dddd6666cccc5555bbbb",
          { GitRepo.mk
              [⟨"0000aaaa1111bbbb2222cccc3333dddd4444eeee", some "first",
                 some "Alice", some "alice@example.com", some "Alice",
                 some "alice@example.com", 100, []⟩]
              (some ⟨"Alice", "alice@example.com", 300⟩) with
            history := c :: (GitRepo.mk
              [⟨"0000aaaa1111bbbb2222cccc3333dddd4444eeee", some "first",
                 some "Alice", some "alice@example.com", some "Alice",
                 some "alice@example.com", 100, []⟩]
              (some ⟨"Alice", "alice@example.com", 300⟩)).history }) ∧
        c.id = "9999ffff8888eeee7777dddd6666cccc5555bbbb" ∧
        c.parents = ["0000aaaa1111bbbb2222cccc3333dddd4444eeee"] ∧
        c.author_name = some "Alice" ∧
        c.author_email = some "alice@example.com" ∧
        c.committer_name = some "Alice" ∧
        c.committer_email = some "alice@example.com" ∧
        ("9999ffff8888eeee7777dddd6666cccc5555bbbb" : String).length = 40 ∧
        ∃ e, git_log
            { GitRepo.mk
                [⟨"0000aaaa1111bbbb2222cccc3333dddd4444eeee", some "first",
                   some "Alice", some "alice@example.com", some "Alice",
                   some "alice@example.com", 100, []⟩]
                (some ⟨"Alice", "alice@example.com", 300⟩) with
              history := c :: (GitRepo.mk
                [⟨"0000aaaa1111bbbb2222cccc3333dddd4444eeee", some "first",
                   some "Alice", some "alice@example.com", some "Alice",
                   some "alice@example.com", 100, []⟩]
                (some ⟨"Alice", "alice@example.com", 300⟩)).history }
            (some 1) = .ok [e] ∧
          e.id =
            ⟨("9999ffff8888eeee7777dddd6666cccc5555bbbb" : String).data.take
              8⟩)) :=
  ⟨⟨rfl, rfl, rfl, by decide⟩,
    c8_commit_identity (GitRepo.mk [] none)
      (GitRepo.mk
        [⟨"0000aaaa1111bbbb2222cccc3333dddd4444eeee", some "first",
           some "Alice", some "alice@example.com", some "Alice",
           some "alice@example.com", 100, []⟩]
        (some ⟨"Alice", "alice@example.com", 300⟩))
      ⟨"Alice", "alice@example.com", 300⟩
      ⟨"0000aaaa1111bbbb2222cccc3333dddd4444eeee", some "first",
        some "Alice", some "alice@example.com", some "Alice",
        some "alice@example.com", 100, []⟩
      [] "update readme" "9999ffff8888eeee7777dddd6666cccc5555bbbb"
      rfl rfl rfl (by decide)⟩

/-- C9: on an allowed path, `write_file` succeeds even when the parent
directories are missing — it creates the whole ancestor chain — and a
subsequent `read_file` of the same path returns exactly the written
content, whatever was stored there before. -/
theorem c9_write_then_read (fs : FileSystem) (path content : String)
    (h : validate_path path = .ok ()) :
    ∃ fs', write_file fs path content = .ok fs' ∧
      read_file fs' path = .ok content ∧
      ∀ d ∈ ancestorDirs path, d ∈ fs'.dirs := by
  cases hp : parentDir path with
  | none =>
      refine ⟨{ fs with files := (path, content) ::
          fs.files.filter (fun kv => kv.1 ≠ path) }, ?_, ?_, ?_⟩
      · simp [write_file, h, hp]
      · simp [read_file, h, List.lookup]
      · simp [ancestorDirs, hp]
  | some par =>
      refine ⟨{ create_dir_all fs par with files := (path, content) ::
          (create_dir_all fs par).files.filter (fun kv => kv.1 ≠ path) },
          ?_, ?_, ?_⟩
      · simp [write_file, h, hp]
      · simp [read_file, h, List.lookup]
      · intro d hd
        simp only [ancestorDirs, hp] at hd
        simp only [create_dir_all, List.mem_append]
        exact Or.inl hd

/-- Witness for C9: writing through two missing parent directories on an
empty filesystem. -/
theorem c9_write_then_read_witness :
    validate_path "projects/notes/todo.txt" = .ok () ∧
    ∃ fs', write_file ⟨[], []⟩ "projects/notes/todo.txt" "hello" = .ok fs' ∧
      read_file fs' "projects/notes/todo.txt" = .ok "hello" ∧
      ∀ d ∈ ancestorDirs "projects/notes/todo.txt", d ∈ fs'.dirs :=
  ⟨rfl, c9_write_then_read ⟨[], []⟩ "projects/notes/todo.txt" "hello" rfl⟩

end Gorgon
